import Mathlib

/-!
# Verification of the FreeRTOS hardware-interrupt sampling project

Shallow embedding of `src/main.cpp` (ESP32 sketch): a hardware-timer ISR
`onTimer` samples the ADC into a double buffer `samples[2][10]`, flips the
buffer every 10 samples and notifies Task A with the just-filled slot id
(`xTaskNotifyFromISR` with `eSetValueWithOverwrite`); Task A averages the 10
samples of the signaled slot and publishes the mean into `globalAverage`;
Task B echoes serial input and, on the line "avg", reports the published
average (50 ms bounded mutex take) to the serial stream and the OLED.

Modelling conventions:
* C `int` values become `ℤ`; the `float globalAverage` and the computed
  average become `ℚ` with exact division (the sums reachable from 12-bit ADC
  readings are far below any overflow or precision loss, so exact rationals
  coincide with the machine arithmetic on all reachable values).
* The 2×10 array `samples` becomes a total map `ℤ → ℤ → ℤ`; bounds of the
  real array are tracked by the `inBounds` predicate.
* The task-notification slot becomes `Option ℤ` with overwrite `send` and
  consuming `receive`, the semantics of `eSetValueWithOverwrite` /
  `xTaskNotifyWait` used at `main.cpp:72` and `main.cpp:92`.
* Concurrency is modelled by interleaving atomic steps (one ISR firing, one
  Task A wake, one Task B character) chosen by an `Event` list; mutex
  availability for Task B's bounded take is an oracle `Bool` per dispatch
  (Task A's take is unbounded and always succeeds, so it needs no oracle).
* Arduino's `Serial.println(float)` and `String(float)` render two decimal
  digits (add 0.005, truncate, emit integer part and two fraction digits);
  `renderFloat2` reproduces that algorithm on `ℚ`.
-/

set_option autoImplicit false

namespace HwInterrupts

/-- Number of samples per buffer slot (`samples[2][10]`, loop bounds 10). -/
def N : ℕ := 10

/-- The C++ conversion of a (nonnegative-valued) `int` to `uint32_t` and
back to an array index, as in `xTaskNotifyFromISR(..., bufferJustFilled, ...)`
received into `uint32_t bufferIndex`: reduction modulo 2^32. -/
def u32 (n : ℤ) : ℤ := n % 4294967296

/-- The notification write performed by
`xTaskNotifyFromISR(taskAHandle, bufferJustFilled, eSetValueWithOverwrite, ...)`
(main.cpp:72-75): unconditionally overwrites any pending value. -/
def send (v : ℤ) (_m : Option ℤ) : Option ℤ := some v

/-- The notification wait `xTaskNotifyWait(0, 0, &bufferIndex, portMAX_DELAY)`
(main.cpp:92): consumes the pending value if there is one. -/
def receive (m : Option ℤ) : Option (ℤ × Option ℤ) :=
  match m with
  | none => none
  | some v => some (v, none)

/-- One store `samples[b][i] = v` into the (total-map model of the) array. -/
def writeSample (samples : ℤ → ℤ → ℤ) (b i v : ℤ) : ℤ → ℤ → ℤ :=
  fun b' i' => if b' = b ∧ i' = i then v else samples b' i'

/-- An index pair that is in bounds for the C array `int samples[2][10]`. -/
def inBounds (b i : ℤ) : Prop := 0 ≤ b ∧ b < 2 ∧ 0 ≤ i ∧ i < 10

/-- The mutable state of the sketch: the globals of `main.cpp` plus the
observable text sinks (serial output stream and OLED content). -/
structure SysState where
  /-- `int samples[2][10]` (main.cpp:38), as a total map. -/
  samples : ℤ → ℤ → ℤ
  /-- `volatile int writeIndex` (main.cpp:41): the active slot. -/
  writeIndex : ℤ
  /-- `volatile int samplePos` (main.cpp:42): position inside the slot. -/
  samplePos : ℤ
  /-- The task-notification mailbox of Task A. -/
  notif : Option ℤ
  /-- `float globalAverage` (main.cpp:45). -/
  globalAverage : ℚ
  /-- `String inputBuffer` of Task B (main.cpp:125). -/
  inputBuffer : String
  /-- Everything printed to `Serial` so far (append-only stream). -/
  serialOut : String
  /-- The string currently rendered on the OLED (last full redraw). -/
  oled : String

/-- The ISR `onTimer` (main.cpp:55-84) at one timer tick, with the value
read from the ADC passed as `adcValue`:
stores into `samples[writeIndex][samplePos]`, increments `samplePos`, and on
reaching 10 records `bufferJustFilled = writeIndex`, flips
`writeIndex = 1 - writeIndex`, resets `samplePos = 0` and sends
`bufferJustFilled` to Task A with overwrite. -/
def onTimer (adcValue : ℤ) (s : SysState) : SysState :=
  let samples1 := writeSample s.samples s.writeIndex s.samplePos adcValue
  let pos1 := s.samplePos + 1
  if pos1 ≥ 10 then
    { s with
        samples := samples1
        writeIndex := 1 - s.writeIndex
        samplePos := 0
        notif := send s.writeIndex s.notif }
  else
    { s with samples := samples1, samplePos := pos1 }

/-- One iteration of Task A's loop (main.cpp:90-109) in which the
notification wait returns: reads the signaled `bufferIndex` (a `uint32_t`),
sums `samples[bufferIndex][i]` for `i = 0..9`, computes `sum / 10.0` and
publishes it into `globalAverage` under the mutex (the unbounded-wait take
always succeeds).  With no notification pending the task stays blocked and
the state is unchanged. -/
def taskAStep (s : SysState) : SysState :=
  match receive s.notif with
  | none => s
  | some (b, m') =>
      let sum : ℤ := ∑ i in Finset.range 10, s.samples (u32 b) (i : ℤ)
      let average : ℚ := (sum : ℚ) / 10
      { s with notif := m', globalAverage := average }

/-- Arduino `Print::println` terminates the line with CR LF. -/
def crlf : String := "\r\n"

/-- The fixed error string of main.cpp:158. -/
def errorMsg : String := "ERROR! >_<...Couldn\x27t access average"

/-- Decimal rendering of a nonnegative rational with exactly two fraction
digits, the algorithm of Arduino `Print::printFloat(number, 2)`: add the
rounding term 0.005, truncate to the integer part, then emit the two next
digits of the remainder.  Writing `x = q + 1/200` as the fraction
`(200 num + den) / (200 den)`, the integer part is `⌊x⌋` and the two-digit
fraction block is `⌊100 x⌋ - 100 ⌊x⌋` (each digit of Arduino's
multiply-truncate loop), both computed here by Euclidean division, which on
this nonnegative fraction is exactly floor. -/
def renderNonneg2 (q : ℚ) : String :=
  let xn : ℤ := 200 * q.num + (q.den : ℤ)
  let xd : ℤ := 200 * (q.den : ℤ)
  let ip : ℤ := xn / xd
  let f2 : ℤ := 100 * xn / xd - 100 * ip
  toString ip.toNat ++ "." ++ toString (f2 / 10).toNat ++ toString (f2 % 10).toNat

/-- Arduino rendering of a float with the default two decimal digits, as
done by both `Serial.println(avgCopy)` and `String(avgCopy)`: a sign for
negative values (`number < 0.0`, i.e. a negative numerator), then the
two-digit rendering of the magnitude. -/
def renderFloat2 (q : ℚ) : String :=
  if q.num < 0 then "-" ++ renderNonneg2 (-q) else renderNonneg2 q

/-- The character class removed by Arduino `String::trim` (C `isspace`):
space, tab, newline, vertical tab, form feed, carriage return. -/
def isspace (c : Char) : Bool :=
  c = ' ' || c = '\t' || c = '\n' || c = '\x0b' || c = '\x0c' || c = '\r'

/-- Arduino `String::trim` (used at main.cpp:136): remove leading and
trailing whitespace characters. -/
def trimStr (s : String) : String :=
  ⟨((s.data.dropWhile isspace).reverse.dropWhile isspace).reverse⟩

/-- The newline branch of Task B (main.cpp:135-169): trim the accumulated
buffer; on "avg" attempt the 50 ms mutex take — on success print
"Average: " and the copied value to serial and render the same text on the
OLED, on timeout print the fixed error string to serial only; any other
line is printed to serial and rendered on the OLED.  The buffer is cleared
in every branch.  `lockOk` tells whether the bounded take succeeded. -/
def dispatch (lockOk : Bool) (s : SysState) : SysState :=
  let t := trimStr s.inputBuffer
  if t = "avg" then
    if lockOk then
      let avgCopy := s.globalAverage
      { s with
          serialOut := s.serialOut ++ "Average: " ++ renderFloat2 avgCopy ++ crlf
          oled := "Average: " ++ renderFloat2 avgCopy
          inputBuffer := "" }
    else
      { s with
          serialOut := s.serialOut ++ errorMsg ++ crlf
          inputBuffer := "" }
  else
    { s with
        serialOut := s.serialOut ++ t ++ crlf
        oled := t
        inputBuffer := "" }

/-- Task B consuming one available character `c` (main.cpp:129-175): echo
it to serial immediately, then either dispatch the line (on newline) or
append the character to the input buffer. -/
def processChar (lockOk : Bool) (c : Char) (s : SysState) : SysState :=
  let s1 := { s with serialOut := s.serialOut.push c }
  if c = '\n' then dispatch lockOk s1
  else { s1 with inputBuffer := s1.inputBuffer.push c }

/-- An atomic step of the interleaved system: a timer ISR firing with a
given ADC reading, a Task A wake-up, or Task B consuming one input
character (with the given mutex-availability oracle). -/
inductive Event where
  | timer (adcValue : ℤ)
  | averager
  | echo (lockOk : Bool) (c : Char)
deriving DecidableEq

/-- Interpretation of one event. -/
def step (e : Event) (s : SysState) : SysState :=
  match e with
  | Event.timer v => onTimer v s
  | Event.averager => taskAStep s
  | Event.echo lockOk c => processChar lockOk c s

/-- Run a list of events from a state. -/
def runFrom (s : SysState) (es : List Event) : SysState :=
  es.foldl (fun s e => step e s) s

/-- The state after `setup()` (main.cpp:181-237): the globals are
zero-initialized (`writeIndex = 0`, `samplePos = 0`, `globalAverage = 0.0`,
no notification pending, zeroed array), the input buffer starts empty,
nothing was printed to serial on the success path, and the OLED was left
showing "OLED Ready". -/
def initState : SysState :=
  { samples := fun _ _ => 0
    writeIndex := 0
    samplePos := 0
    notif := none
    globalAverage := 0
    inputBuffer := ""
    serialOut := ""
    oled := "OLED Ready" }

/-- Run a list of events from the post-`setup` state. -/
def run (es : List Event) : SysState := runFrom initState es

/-- The slot ids a single event hands off: a timer tick that fills the
active slot emits the pre-flip `writeIndex`; everything else emits
nothing. -/
def flipEmit (e : Event) (s : SysState) : List ℤ :=
  match e with
  | Event.timer _ => if s.samplePos + 1 ≥ 10 then [s.writeIndex] else []
  | Event.averager => []
  | Event.echo _ _ => []

/-- The slot ids handed off by the flips that occur along an event list:
one entry (the pre-flip `writeIndex`) for each timer tick that fills the
active slot. -/
def flipTrace (s : SysState) : List Event → List ℤ
  | [] => []
  | e :: es => flipEmit e s ++ flipTrace (step e s) es

/-- Put a line into Task B's buffer, as the character loop does just before
the newline arrives. -/
def withLine (l : String) (s : SysState) : SysState := { s with inputBuffer := l }

/-- A convenient concrete state: post-`setup` state with a given line in
Task B's buffer and a given published average. -/
def mkState (buf : String) (av : ℚ) : SysState :=
  { initState with inputBuffer := buf, globalAverage := av }

/-! ## Preservation lemmas -/

theorem onTimer_globalAverage (v : ℤ) (s : SysState) :
    (onTimer v s).globalAverage = s.globalAverage := by
  simp only [onTimer]
  split <;> rfl

theorem dispatch_globalAverage (lk : Bool) (s : SysState) :
    (dispatch lk s).globalAverage = s.globalAverage := by
  simp only [dispatch]
  split_ifs <;> rfl

theorem processChar_globalAverage (lk : Bool) (c : Char) (s : SysState) :
    (processChar lk c s).globalAverage = s.globalAverage := by
  simp only [processChar]
  split_ifs <;> simp [dispatch_globalAverage]

theorem taskAStep_writeIndex (s : SysState) :
    (taskAStep s).writeIndex = s.writeIndex := by
  cases h : s.notif <;> simp [taskAStep, receive, h]

theorem taskAStep_samplePos (s : SysState) :
    (taskAStep s).samplePos = s.samplePos := by
  cases h : s.notif <;> simp [taskAStep, receive, h]

theorem dispatch_writeIndex (lk : Bool) (s : SysState) :
    (dispatch lk s).writeIndex = s.writeIndex := by
  simp only [dispatch]
  split_ifs <;> rfl

theorem dispatch_samplePos (lk : Bool) (s : SysState) :
    (dispatch lk s).samplePos = s.samplePos := by
  simp only [dispatch]
  split_ifs <;> rfl

theorem dispatch_notif (lk : Bool) (s : SysState) :
    (dispatch lk s).notif = s.notif := by
  simp only [dispatch]
  split_ifs <;> rfl

theorem processChar_writeIndex (lk : Bool) (c : Char) (s : SysState) :
    (processChar lk c s).writeIndex = s.writeIndex := by
  simp only [processChar]
  split_ifs <;> simp [dispatch_writeIndex]

theorem processChar_samplePos (lk : Bool) (c : Char) (s : SysState) :
    (processChar lk c s).samplePos = s.samplePos := by
  simp only [processChar]
  split_ifs <;> simp [dispatch_samplePos]

theorem processChar_notif (lk : Bool) (c : Char) (s : SysState) :
    (processChar lk c s).notif = s.notif := by
  simp only [processChar]
  split_ifs <;> simp [dispatch_notif]

theorem runFrom_cons (s : SysState) (e : Event) (es : List Event) :
    runFrom s (e :: es) = runFrom (step e s) es := rfl

theorem step_globalAverage (e : Event) (s : SysState) (h : e ≠ Event.averager) :
    (step e s).globalAverage = s.globalAverage := by
  cases e with
  | timer v => exact onTimer_globalAverage v s
  | averager => exact absurd rfl h
  | echo lk c => exact processChar_globalAverage lk c s

theorem runFrom_globalAverage (es : List Event) :
    ∀ s : SysState, Event.averager ∉ es →
      (runFrom s es).globalAverage = s.globalAverage := by
  induction es with
  | nil => intro s _; rfl
  | cons e es ih =>
      intro s h
      simp only [List.mem_cons, not_or] at h
      rw [runFrom_cons, ih (step e s) h.2,
        step_globalAverage e s (fun he => h.1 he.symm)]

/-! ## Claims -/

/-- C2: one invocation of the sampler's write operation (`onTimer`) from a
state with `writePos = N-1 = 9` records the filled slot (= the pre-flip
`writeIndex`), flips `writeIndex` to `1 - writeIndex`, resets `samplePos`
to 0, and hands the filled slot id off (overwriting any pending
notification); from a state with `writePos < 9` it only appends the value
and increments `samplePos`, leaving `writeIndex` (and the mailbox)
unchanged. -/
theorem C2_write_sample_flip (s : SysState) (v : ℤ) :
    (s.samplePos = 9 →
      onTimer v s =
        { s with
            samples := writeSample s.samples s.writeIndex 9 v
            writeIndex := 1 - s.writeIndex
            samplePos := 0
            notif := some s.writeIndex }) ∧
    (s.samplePos < 9 →
      onTimer v s =
        { s with
            samples := writeSample s.samples s.writeIndex s.samplePos v
            samplePos := s.samplePos + 1 }) := by
  constructor
  · intro h
    simp only [onTimer, send, h]
    norm_num
  · intro h
    have hlt : ¬(s.samplePos + 1 ≥ 10) := by omega
    simp only [onTimer, send, if_neg hlt]

/-- Witness for C2 at concrete states: a slot that is one write away from
full flips and hands off slot 0; an empty slot just appends. -/
theorem C2_write_sample_flip_witness :
    onTimer 42 { initState with samplePos := 9 } =
      { initState with
          samples := writeSample initState.samples 0 9 42
          writeIndex := 1
          samplePos := 0
          notif := some 0 } ∧
    onTimer 42 initState =
      { initState with
          samples := writeSample initState.samples 0 0 42
          samplePos := 1 } :=
  ⟨(C2_write_sample_flip { initState with samplePos := 9 } 42).1 rfl,
   (C2_write_sample_flip initState 42).2 (by norm_num [initState])⟩

/-- C4: the handoff channel is last-write-wins: after two sends with no
intervening receive, the single subsequent receive yields exactly the most
recent slot id (and empties the channel), and the earlier slot id can never
be the one received. -/
theorem C4_handoff_last_write_wins (m : Option ℤ) (b1 b2 : ℤ) (h : b1 ≠ b2) :
    receive (send b2 (send b1 m)) = some (b2, none) ∧
    ∀ m' : Option ℤ, receive (send b2 (send b1 m)) ≠ some (b1, m') := by
  refine ⟨rfl, fun m' hc => ?_⟩
  simp only [send, receive, Option.some.injEq, Prod.mk.injEq] at hc
  exact h hc.1.symm

/-- Witness for C4: sends of slot 0 then slot 1 on an empty channel. -/
theorem C4_handoff_last_write_wins_witness :
    receive (send 1 (send 0 none)) = some (1, none) ∧
    ∀ m' : Option ℤ, receive (send 1 (send 0 none)) ≠ some (0, m') :=
  C4_handoff_last_write_wins none 0 1 (by norm_num)

/-- C5: an "avg" dispatch whose bounded mutex take times out appends
exactly the fixed error string (and line ending) to the serial stream,
leaves the OLED and `globalAverage` unchanged, and never reads
`globalAverage`: its serial and OLED output are independent of the value
stored there. -/
theorem C5_avg_timeout_error_path (s : SysState)
    (h : trimStr s.inputBuffer = "avg") :
    (dispatch false s).serialOut = s.serialOut ++ errorMsg ++ crlf ∧
    (dispatch false s).oled = s.oled ∧
    (dispatch false s).globalAverage = s.globalAverage ∧
    ∀ x : ℚ,
      (dispatch false { s with globalAverage := x }).serialOut =
        (dispatch false s).serialOut ∧
      (dispatch false { s with globalAverage := x }).oled =
        (dispatch false s).oled := by
  simp [dispatch, h]

/-- Witness for C5 at a concrete state holding the line " avg ". -/
theorem C5_avg_timeout_error_path_witness :
    (dispatch false (mkState " avg " (1/2))).serialOut =
      (mkState " avg " (1/2)).serialOut ++ errorMsg ++ crlf ∧
    (dispatch false (mkState " avg " (1/2))).oled = (mkState " avg " (1/2)).oled :=
  ⟨(C5_avg_timeout_error_path (mkState " avg " (1/2)) (by decide)).1,
   (C5_avg_timeout_error_path (mkState " avg " (1/2)) (by decide)).2.1⟩

/-- The rational 512.3 = 5123/10 in reduced form (kernel-computable). -/
def q512 : ℚ := ⟨5123, 10, by norm_num, by norm_num⟩

theorem q512_eq : q512 = 5123 / 10 := by
  rw [← Rat.num_div_den q512]
  norm_num [show q512.num = 5123 from rfl, show q512.den = 10 from rfl]

/-- Every branch of `dispatch` only appends to the serial output stream. -/
theorem dispatch_serialOut_append (lk : Bool) (s : SysState) :
    ∃ t : String, (dispatch lk s).serialOut = s.serialOut ++ t := by
  simp only [dispatch]
  split_ifs
  · exact ⟨"Average: " ++ renderFloat2 s.globalAverage ++ crlf,
      by simp [String.append_assoc]⟩
  · exact ⟨errorMsg ++ crlf, by simp [String.append_assoc]⟩
  · exact ⟨trimStr s.inputBuffer ++ crlf, by simp [String.append_assoc]⟩

/-- C6 counterexample: with SharedAverage holding exactly 512.3, a
successful "avg" dispatch renders `Average: 512.30` (Arduino's default
two-decimal float rendering), not `Average: 512.3` as the claim states —
on the OLED and on the serial stream alike. -/
theorem C6_counterexample_512_3 :
    q512 = 5123 / 10 ∧
    (dispatch true (mkState "avg" q512)).oled ≠ "Average: 512.3" ∧
    (dispatch true (mkState "avg" q512)).serialOut ≠
      (mkState "avg" q512).serialOut ++ "Average: 512.3" ++ crlf ∧
    (dispatch true (mkState "avg" q512)).oled = "Average: 512.30" ∧
    (dispatch true (mkState "avg" q512)).serialOut =
      (mkState "avg" q512).serialOut ++ "Average: 512.30" ++ crlf :=
  ⟨q512_eq, by decide, by decide, by decide, by decide⟩

/-- C6 (amended): every successful "avg" dispatch writes `Average: `
followed by the two-decimal Arduino rendering of the current SharedAverage
value to both the serial stream and the OLED; for 512.3 that text is
`Average: 512.30`. -/
theorem C6_avg_success_two_decimals (s : SysState)
    (h : trimStr s.inputBuffer = "avg") :
    (dispatch true s).serialOut =
      s.serialOut ++ "Average: " ++ renderFloat2 s.globalAverage ++ crlf ∧
    (dispatch true s).oled = "Average: " ++ renderFloat2 s.globalAverage := by
  simp [dispatch, h]

/-- Witness for C6 (amended) at the concrete state with average 512.3. -/
theorem C6_avg_success_two_decimals_witness :
    (dispatch true (mkState "avg" q512)).oled =
      "Average: " ++ renderFloat2 q512 :=
  (C6_avg_success_two_decimals (mkState "avg" q512) (by decide)).2

/-- C7: every consumed input character is immediately echoed to the serial
stream (whatever else the step appends afterwards), and a dispatched line
whose trimmed content is not "avg" writes that trimmed content to the
serial stream and renders it on the OLED. -/
theorem C7_echo_and_plain_line :
    (∀ (lockOk : Bool) (c : Char) (s : SysState),
      ∃ rest : String,
        (processChar lockOk c s).serialOut = s.serialOut.push c ++ rest) ∧
    (∀ (lockOk : Bool) (s : SysState), trimStr s.inputBuffer ≠ "avg" →
      (dispatch lockOk s).serialOut =
        s.serialOut ++ trimStr s.inputBuffer ++ crlf ∧
      (dispatch lockOk s).oled = trimStr s.inputBuffer) := by
  constructor
  · intro lockOk c s
    by_cases hc : c = '\n'
    · subst hc
      obtain ⟨t, ht⟩ :=
        dispatch_serialOut_append lockOk { s with serialOut := s.serialOut.push '\n' }
      exact ⟨t, by simpa [processChar] using ht⟩
    · exact ⟨"", by simp [processChar, hc, String.append_empty]⟩
  · intro lockOk s h
    simp [dispatch, h]

/-- Witness for C7: a character echo from the initial state, the line
"hello" dispatched, and the end-to-end run of the input "hello\n" leaving
`hello` echoed plus printed on serial and `hello` on the OLED. -/
theorem C7_echo_and_plain_line_witness :
    (∃ rest : String,
      (processChar true 'h' initState).serialOut =
        initState.serialOut.push 'h' ++ rest) ∧
    (dispatch true (mkState "hello" 0)).oled = "hello" ∧
    (run [Event.echo true 'h', Event.echo true 'e', Event.echo true 'l',
          Event.echo true 'l', Event.echo true 'o',
          Event.echo true '\n']).serialOut = "hello\nhello" ++ crlf ∧
    (run [Event.echo true 'h', Event.echo true 'e', Event.echo true 'l',
          Event.echo true 'l', Event.echo true 'o',
          Event.echo true '\n']).oled = "hello" := by
  refine ⟨C7_echo_and_plain_line.1 true 'h' initState, ?_, by decide, by decide⟩
  have h := (C7_echo_and_plain_line.2 true (mkState "hello" 0) (by decide)).2
  rw [h]
  decide

theorem trimStr_avg : trimStr "avg" = "avg" := by decide

/-- C8: two consecutive successful "avg" queries with no Averager publish
between them (no `averager` event runs in between) produce identical
reports: the same OLED text, and the very same string appended to the
serial stream by both dispatches. -/
theorem C8_avg_query_idempotent (s : SysState) (es : List Event)
    (h : Event.averager ∉ es) :
    (dispatch true (withLine "avg"
        (runFrom (dispatch true (withLine "avg" s)) es))).oled =
      (dispatch true (withLine "avg" s)).oled ∧
    ∃ out : String,
      (dispatch true (withLine "avg" s)).serialOut = s.serialOut ++ out ∧
      (dispatch true (withLine "avg"
          (runFrom (dispatch true (withLine "avg" s)) es))).serialOut =
        (runFrom (dispatch true (withLine "avg" s)) es).serialOut ++ out := by
  have hga1 : (dispatch true (withLine "avg" s)).globalAverage = s.globalAverage :=
    dispatch_globalAverage true (withLine "avg" s)
  have hga2 : (runFrom (dispatch true (withLine "avg" s)) es).globalAverage
      = s.globalAverage := by
    rw [runFrom_globalAverage es _ h, hga1]
  set s2 := runFrom (dispatch true (withLine "avg" s)) es with hs2
  refine ⟨?_, "Average: " ++ renderFloat2 s.globalAverage ++ crlf, ?_, ?_⟩
  · simp [dispatch, withLine, trimStr_avg, hga2]
  · simp [dispatch, withLine, trimStr_avg, String.append_assoc]
  · simp [dispatch, withLine, trimStr_avg, hga2, String.append_assoc]

/-- Witness for C8: two queries from the post-`setup` state separated by a
timer tick. -/
theorem C8_avg_query_idempotent_witness :
    (dispatch true (withLine "avg"
        (runFrom (dispatch true (withLine "avg" initState))
          [Event.timer 7]))).oled =
      (dispatch true (withLine "avg" initState)).oled :=
  (C8_avg_query_idempotent initState [Event.timer 7] (by decide)).1

/-- C9: `globalAverage` is initialized to 0.0, so as long as the Averager
has not run (published nothing), a successful "avg" query reports the value
0 as the text `Average: 0.00` on serial and OLED — an ordinary value
report, not an error or absent-value result. -/
theorem C9_initial_average_zero_query (es : List Event)
    (h : Event.averager ∉ es) :
    initState.globalAverage = 0 ∧
    (dispatch true (withLine "avg" (run es))).serialOut =
      (run es).serialOut ++ "Average: 0.00" ++ crlf ∧
    (dispatch true (withLine "avg" (run es))).oled = "Average: 0.00" := by
  have hga : (run es).globalAverage = 0 :=
    runFrom_globalAverage es initState h
  have hr0 : renderFloat2 (0 : ℚ) = "0.00" := by decide
  have hA : ("Average: " : String) ++ "0.00" = "Average: 0.00" := by decide
  refine ⟨rfl, ?_, ?_⟩
  · rw [show (dispatch true (withLine "avg" (run es))).serialOut =
        (run es).serialOut ++ "Average: " ++ renderFloat2 (run es).globalAverage ++ crlf
      from by simp [dispatch, withLine, trimStr_avg], hga, hr0,
      String.append_assoc ((run es).serialOut) "Average: " "0.00", hA]
  · rw [show (dispatch true (withLine "avg" (run es))).oled =
        "Average: " ++ renderFloat2 (run es).globalAverage
      from by simp [dispatch, withLine, trimStr_avg], hga, hr0, hA]

/-- Witness for C9: the empty run (query immediately after `setup`). -/
theorem C9_initial_average_zero_query_witness :
    (dispatch true (withLine "avg" (run []))).oled = "Average: 0.00" :=
  (C9_initial_average_zero_query [] (by decide)).2.2

/-- Generalized alternation: from any state whose active slot id is 0 or 1,
the `k`-th slot id handed off along a run is `(writeIndex + k) % 2`. -/
theorem flipTrace_alternates (es : List Event) :
    ∀ s : SysState, s.writeIndex = 0 ∨ s.writeIndex = 1 →
      ∀ k : ℕ, k < (flipTrace s es).length →
        (flipTrace s es).getD k 0 = (s.writeIndex + k) % 2 := by
  induction es with
  | nil =>
      intro s _ k hk
      simp [flipTrace] at hk
  | cons e es ih =>
      intro s hs k hk
      cases e with
      | timer v =>
          by_cases h10 : s.samplePos + 1 ≥ 10
          · have hw : (step (Event.timer v) s).writeIndex = 1 - s.writeIndex := by
              simp [step, onTimer, h10]
            have hgood : (step (Event.timer v) s).writeIndex = 0 ∨
                (step (Event.timer v) s).writeIndex = 1 := by
              rcases hs with h | h <;> rw [hw, h] <;> norm_num
            simp only [flipTrace, flipEmit, if_pos h10, List.singleton_append] at hk ⊢
            cases k with
            | zero =>
                rcases hs with h | h <;> simp [h]
            | succ k =>
                simp only [List.length_cons, Nat.succ_lt_succ_iff] at hk
                simp only [List.getD_cons_succ]
                rw [ih (step (Event.timer v) s) hgood k hk, hw]
                rcases hs with h | h <;> rw [h] <;> push_cast <;> omega
          · have hw : (step (Event.timer v) s).writeIndex = s.writeIndex := by
              simp [step, onTimer, h10]
            simp only [flipTrace, flipEmit, if_neg h10, List.nil_append] at hk ⊢
            rw [ih (step (Event.timer v) s) (by rw [hw]; exact hs) k hk, hw]
      | averager =>
          have hw : (step Event.averager s).writeIndex = s.writeIndex :=
            taskAStep_writeIndex s
          simp only [flipTrace, flipEmit, List.nil_append] at hk ⊢
          rw [ih (step Event.averager s) (by rw [hw]; exact hs) k hk, hw]
      | echo lk c =>
          have hw : (step (Event.echo lk c) s).writeIndex = s.writeIndex :=
            processChar_writeIndex lk c s
          simp only [flipTrace, flipEmit, List.nil_append] at hk ⊢
          rw [ih (step (Event.echo lk c) s) (by rw [hw]; exact hs) k hk, hw]

/-- C3: along every execution from the initial state, the slot ids handed
off by successive buffer flips strictly alternate 0, 1, 0, 1, …: the flip
at (0-based) position `k` of the trace hands off slot `k % 2` (so the
`k`-th flip, counting from 1, hands off `(k-1) % 2`). -/
theorem C3_flip_alternation (es : List Event) (k : ℕ)
    (hk : k < (flipTrace initState es).length) :
    (flipTrace initState es).getD k 0 = (k : ℤ) % 2 := by
  have h := flipTrace_alternates es initState (Or.inl rfl) k hk
  simpa [initState] using h

/-- Witness for C3: ten timer ticks produce one flip, of slot 0. -/
theorem C3_flip_alternation_witness :
    (flipTrace initState (List.replicate 10 (Event.timer 3))).getD 0 0 =
      ((0 : ℕ) : ℤ) % 2 :=
  C3_flip_alternation (List.replicate 10 (Event.timer 3)) 0 (by decide)

/-- The invariant behind C10: the active slot id is always 0 or 1, and any
pending handoff payload is 0 or 1. -/
def buffersOk (s : SysState) : Prop :=
  (s.writeIndex = 0 ∨ s.writeIndex = 1) ∧
  ∀ b : ℤ, s.notif = some b → b = 0 ∨ b = 1

theorem buffersOk_step (e : Event) (s : SysState) (h : buffersOk s) :
    buffersOk (step e s) := by
  obtain ⟨h1, h2⟩ := h
  cases e with
  | timer v =>
      by_cases h10 : s.samplePos + 1 ≥ 10
      · constructor
        · rcases h1 with h | h <;> simp [step, onTimer, h10, h]
        · intro b hb
          simp only [step, onTimer, if_pos h10, send] at hb
          rcases hb with hb
          simp only [Option.some.injEq] at hb
          rw [← hb]
          exact h1
      · constructor
        · simpa [step, onTimer, h10] using h1
        · intro b hb
          apply h2
          simpa [step, onTimer, h10] using hb
  | averager =>
      cases hn : s.notif with
      | none =>
          constructor
          · simpa [step, taskAStep, receive, hn] using h1
          · intro b hb
            apply h2
            rw [show (step Event.averager s).notif = s.notif from by
              simp [step, taskAStep, receive, hn]] at hb
            exact hb
      | some x =>
          constructor
          · simpa [step, taskAStep, receive, hn] using h1
          · intro b hb
            simp [step, taskAStep, receive, hn] at hb
  | echo lk c =>
      constructor
      · rw [show (step (Event.echo lk c) s).writeIndex = s.writeIndex from
          processChar_writeIndex lk c s]
        exact h1
      · intro b hb
        apply h2
        rw [← processChar_notif lk c s]
        exact hb

theorem buffersOk_runFrom (es : List Event) :
    ∀ s : SysState, buffersOk s → buffersOk (runFrom s es) := by
  induction es with
  | nil => intro s hs; exact hs
  | cons e es ih =>
      intro s hs
      rw [runFrom_cons]
      exact ih (step e s) (buffersOk_step e s hs)

theorem buffersOk_run (es : List Event) : buffersOk (run es) := by
  rw [run]
  refine buffersOk_runFrom es initState ⟨Or.inl rfl, fun b hb => ?_⟩
  simp [initState] at hb

/-- C10: every slot id the Averager can find in the handoff mailbox in a
reachable state is 0 or 1 (the sampler only ever sends the pre-flip
`writeIndex`, which stays in {0,1}), so the summation loop accesses
`samples[bufferIndex][i]` in bounds for all ten loop indices. -/
theorem C10_handoff_slot_in_bounds (es : List Event) (b : ℤ)
    (h : (run es).notif = some b) :
    (b = 0 ∨ b = 1) ∧ ∀ i : ℤ, 0 ≤ i → i < 10 → inBounds (u32 b) i := by
  have hb := (buffersOk_run es).2 b h
  refine ⟨hb, fun i h0 h10 => ?_⟩
  rcases hb with h | h <;> subst h <;>
    exact ⟨by decide, by decide, h0, h10⟩

/-- Witness for C10: after ten timer ticks the mailbox holds slot 0, which
indexes the array in bounds at every loop position. -/
theorem C10_handoff_slot_in_bounds_witness :
    ((0 : ℤ) = 0 ∨ (0 : ℤ) = 1) ∧ inBounds (u32 0) 9 :=
  have h := C10_handoff_slot_in_bounds (List.replicate 10 (Event.timer 5)) 0 (by decide)
  ⟨h.1, h.2 9 (by norm_num) (by norm_num)⟩

/-- C1: starting from any state whose active slot is fresh (`samplePos = 0`,
slot id 0 or 1), feeding the ten readings `r0..r9` through ten timer ticks
fills the slot, and the Averager wake-up that consumes the resulting
handoff publishes into `globalAverage` exactly the arithmetic mean of those
ten readings: their integer sum divided by 10, as an exact (rational)
division — the model of the C code's `sum / 10.0`. -/
theorem C1_averager_publishes_mean (s : SysState)
    (r0 r1 r2 r3 r4 r5 r6 r7 r8 r9 : ℤ)
    (hpos : s.samplePos = 0) (hidx : s.writeIndex = 0 ∨ s.writeIndex = 1) :
    (taskAStep (runFrom s
        [Event.timer r0, Event.timer r1, Event.timer r2, Event.timer r3,
         Event.timer r4, Event.timer r5, Event.timer r6, Event.timer r7,
         Event.timer r8, Event.timer r9])).globalAverage =
      ((r0 + r1 + r2 + r3 + r4 + r5 + r6 + r7 + r8 + r9 : ℤ) : ℚ) / 10 := by
  obtain ⟨sam, wi, sp, nt, ga, ib, so, ol⟩ := s
  dsimp only at hpos hidx
  subst hpos
  rcases hidx with h | h <;> subst h <;>
    norm_num [runFrom, step, onTimer, send, writeSample, taskAStep, receive,
      u32, Finset.sum_range_succ]

/-- Witness for C1: the readings 0..9 fed from the initial state produce
the published average 45/10. -/
theorem C1_averager_publishes_mean_witness :
    (taskAStep (runFrom initState
        [Event.timer 0, Event.timer 1, Event.timer 2, Event.timer 3,
         Event.timer 4, Event.timer 5, Event.timer 6, Event.timer 7,
         Event.timer 8, Event.timer 9])).globalAverage =
      ((0 + 1 + 2 + 3 + 4 + 5 + 6 + 7 + 8 + 9 : ℤ) : ℚ) / 10 :=
  C1_averager_publishes_mean initState 0 1 2 3 4 5 6 7 8 9 rfl (Or.inl rfl)

end HwInterrupts
